import Mathlib

/-!
Verification development for the AI-TAX-REFORM hybrid RAG pipeline.

This file shallowly embeds the parts of the Python code base that the
documented properties speak about:

* `backend/app/services/retriever.py` — `HybridRetriever._fuse_results` and
  the `[:top_k]` truncation in `HybridRetriever.retrieve`;
* `backend/app/services/generator.py` — `ResponseGenerator.is_greeting`,
  `_calculate_confidence`, `_extract_sources`, `generate_response`;
* `backend/app/services/tools.py` — `TaxCalculator.calculate` and
  `UniversalSearch.search`;
* `backend/app/services/json_graph.py` — `JSONGraphDB.search` and
  `JSONGraphDB.get_related_entities`, plus
  `JsonGraphRetriever.search_by_entity` from `retriever.py`;
* `scripts/qa_service.py` — `verify_answer`, together with the verification
  block of the `aqa` endpoint in `app.py`;
* `backend/app/services/rag_pipeline.py` — the confidence computation of
  `GraphRAGPipeline.answer_query`.

Modelling conventions.  Python strings are `String`/`List Char` (operations
are carried out on `List Char` so that every definition reduces in the
kernel).  Python numbers (ints and floats) are modelled as exact rationals:
`ℚ` where only algebraic reasoning is needed, and the pair representation
`PyNum` (an integer numerator with a natural denominator) inside the
calculator, where concrete evaluation by `decide` is required.  Rounding of
binary floating point is outside the model; every concrete number appearing
in a theorem below is exact in both semantics.  Python dict `.get` defaults
are modelled with `Option` fields and `getD`.  Remote calls (language model,
web search, vector index) are modelled by passing their outcome as an
explicit argument.
-/

namespace NTRIA

/-! ## Shared string utilities (Python `in`, `str.split()`, `str.strip()`, `str.lower()`) -/

/-- First occurrence split: `splitAtSub m l = some (a, b)` when `l = a ++ m ++ b`
and this is the leftmost occurrence of `m` in `l`; `none` when `m` does not
occur.  This models Python substring search (`m in l`, `re`-style scanning). -/
def splitAtSub (m : List Char) : List Char → Option (List Char × List Char)
  | [] => if m.isPrefixOf ([] : List Char) then some ([], []) else none
  | c :: rest =>
    if m.isPrefixOf (c :: rest) then some ([], (c :: rest).drop m.length)
    else (splitAtSub m rest).map (fun p => (c :: p.1, p.2))

/-- Python `needle in hay` on strings (here on char lists). -/
def containsSub (hay needle : List Char) : Bool :=
  (splitAtSub needle hay).isSome

/-- Python `str.lower()` (ASCII case folding; the queries and vocabulary in
the source are ASCII). -/
def lowerChars (l : List Char) : List Char :=
  l.map Char.toLower

/-- Python `str.strip()`. -/
def trimWs (l : List Char) : List Char :=
  ((l.dropWhile Char.isWhitespace).reverse.dropWhile Char.isWhitespace).reverse

/-- Helper for `splitWs`: accumulates the current word (reversed) while
scanning. -/
def splitWsAux : List Char → List Char → List (List Char)
  | [], acc => if acc.isEmpty then [] else [acc.reverse]
  | c :: rest, acc =>
    if c.isWhitespace then
      if acc.isEmpty then splitWsAux rest [] else acc.reverse :: splitWsAux rest []
    else splitWsAux rest (c :: acc)

/-- Python `str.split()` with no separator: splits on runs of whitespace and
returns only the non-empty words. -/
def splitWs (l : List Char) : List (List Char) :=
  splitWsAux l []

/-! ## Data model shared by the retrieval services

A vector-search hit is a dict `{id, score, text, metadata}`; `_fuse_results`,
`_calculate_confidence`, `_extract_sources` and `answer_query` read it with
`.get` and defaults, which the `Option` fields and the accessors below
mirror.  A graph-search hit is an arbitrary dict that `_fuse_results` only
ever consumes through `json.dumps`, so it is represented by its
serialization. -/

/-- The `metadata` dict of a vector result; only the keys the services read
(`source`, `page`) are represented. -/
structure DocMetadata where
  source : Option String
  page : Option Int
deriving DecidableEq

/-- A vector-search hit.  `score?`/`text?`/`metadata?` are `none` when the
corresponding dict key is absent. -/
structure VectorResult where
  score? : Option ℚ
  text? : Option String
  metadata? : Option DocMetadata
deriving DecidableEq

/-- `vr.get("score", 0)`. -/
def VectorResult.score (r : VectorResult) : ℚ := r.score?.getD 0

/-- `vr.get("text", "")`. -/
def VectorResult.text (r : VectorResult) : String := r.text?.getD ""

/-- `vr.get("metadata", {})`. -/
def VectorResult.meta (r : VectorResult) : DocMetadata := r.metadata?.getD ⟨none, none⟩

/-- A graph-search hit, represented by its `json.dumps` serialization (the
only way `_fuse_results` consumes it). -/
structure GraphResult where
  dump : String
deriving DecidableEq

/-- Origin tag of a fused entry (the `"source"` key, `"vector"` or `"graph"`). -/
inductive FusedSource where
  | vector
  | graph
deriving DecidableEq

/-- One entry of the fused result list built by `_fuse_results`. -/
structure FusedResult where
  src : FusedSource
  score : ℚ
  content : String
  meta : DocMetadata
deriving DecidableEq

/-! ## Fusion & Ranking Engine (`HybridRetriever._fuse_results`, `retrieve`) -/

/-- The fused entry built from a vector result. -/
def fusedOfVector (vr : VectorResult) : FusedResult :=
  ⟨.vector, vr.score, vr.text, vr.meta⟩

/-- The synthetic score `0.5 - (i * 0.05)` given to the graph result at
zero-based position `i`. -/
def graphScore (i : ℕ) : ℚ := 1/2 - i * (1/20)

/-- The fused entry built from the graph result at zero-based position `i`
(`content = json.dumps(gr)`, `metadata = {}`). -/
def fusedOfGraph (i : ℕ) (gr : GraphResult) : FusedResult :=
  ⟨.graph, graphScore i, gr.dump, ⟨none, none⟩⟩

/-- The comparison used by `fused.sort(key=lambda x: x["score"], reverse=True)`:
descending by score (a stable merge sort models Python's stable `list.sort`). -/
def scoreDescBool (a b : FusedResult) : Bool := decide (b.score ≤ a.score)

/-- The combined list before sorting: vector entries first, then graph
entries with their synthetic decreasing scores. -/
def combinedResults (graphResults : List GraphResult) (vectorResults : List VectorResult) :
    List FusedResult :=
  vectorResults.map fusedOfVector ++ (graphResults.enum.map fun p => fusedOfGraph p.1 p.2)

/-- The combined list after the descending stable sort. -/
def sortedResults (graphResults : List GraphResult) (vectorResults : List VectorResult) :
    List FusedResult :=
  (combinedResults graphResults vectorResults).mergeSort scoreDescBool

/-- The deduplication key: `hash(result["content"][:100])`.  Python's
(injective-up-to-collision) hash of the first 100 characters is modelled by
the first 100 characters themselves. -/
def contentKey (r : FusedResult) : String := r.content.take 100

/-- The dedup loop of `_fuse_results`: keep an entry when its content key was
not seen before, remembering seen keys. -/
def dedupAux : List FusedResult → List String → List FusedResult
  | [], _ => []
  | r :: rest, seen =>
    if contentKey r ∈ seen then dedupAux rest seen
    else r :: dedupAux rest (contentKey r :: seen)

/-- `HybridRetriever._fuse_results`: map, sort descending by score, then
deduplicate by content key keeping first occurrences. -/
def fuseResults (graphResults : List GraphResult) (vectorResults : List VectorResult) :
    List FusedResult :=
  dedupAux (sortedResults graphResults vectorResults) []

/-- The fused sequence exposed by `HybridRetriever.retrieve`:
`fused[:top_k]`. -/
def retrieveFused (graphResults : List GraphResult) (vectorResults : List VectorResult)
    (topK : ℕ) : List FusedResult :=
  (fuseResults graphResults vectorResults).take topK

/-! ## Query Analyzer: greeting detection (`ResponseGenerator.is_greeting`) -/

/-- The fixed greeting vocabulary of `is_greeting` (the Python list
`greetings`). -/
def greetingsList : List String :=
  ["hi", "hello", "hey", "greetings", "good morning", "good afternoon",
   "good evening", "what\x27s up", "howdy"]

/-- `query.lower().strip().split()`. -/
def pyWords (query : String) : List (List Char) :=
  splitWs (trimWs (lowerChars query.toList))

/-- `ResponseGenerator.is_greeting`: the query has at least one and at most
three whitespace-separated words, and some vocabulary entry occurs as a
substring of the lowercased query
(`len(words) <= 3 and any(g in query.lower() for g in greetings)`). -/
def is_greeting (query : String) : Bool :=
  let words := pyWords query
  if words.isEmpty then false
  else decide (words.length ≤ 3) &&
    greetingsList.any (fun g => containsSub (lowerChars query.toList) g.toList)

/-! ## Retrieval context and confidence (`ResponseGenerator._calculate_confidence`) -/

/-- The retrieval-context dict as read by the generator: `graph_results`,
`vector_results` and the optional `external_knowledge` key. -/
structure RetrievalContext where
  graph_results : List GraphResult
  vector_results : List VectorResult
  external_knowledge : Option String
deriving DecidableEq

/-- Mean of `r.get("score", 0)` over a list of vector results. -/
def avgScore (l : List VectorResult) : ℚ :=
  (l.map VectorResult.score).sum / l.length

/-- `ResponseGenerator._calculate_confidence`: base `0.5`, `+0.2` when graph
results are present, `+ min(avg_score, 0.3)` when vector results are
present, finally `min(confidence, 1.0)`. -/
def calcConfidence (ctx : RetrievalContext) : ℚ :=
  let c1 : ℚ := 1/2
  let c2 : ℚ := if ctx.graph_results.isEmpty then c1 else c1 + 1/5
  let c3 : ℚ :=
    if ctx.vector_results.isEmpty then c2
    else c2 + min (avgScore ctx.vector_results) (3/10)
  min c3 1

/-! ## Source extraction and response assembly (`ResponseGenerator`) -/

/-- One entry of the generator's `sources` list. -/
structure SourceRec where
  title : String
  page : Option Int
  type : String
deriving DecidableEq

/-- Python truthiness of `metadata.get("source")`: a present, non-empty
string. -/
def sourceTruthy (o : Option String) : Bool :=
  match o with
  | none => false
  | some s => !(s == "")

/-- The loop of `_extract_sources`: append `{title, page, type}` for each
vector result with a truthy `source`, deduplicating on the
`(source, page)` key (the Python `f"{source}_{page}"` key is injective on
these values). -/
def extractSourcesAux : List VectorResult → List (String × Option Int) → List SourceRec
  | [], _ => []
  | r :: rest, seen =>
    match r.meta.source with
    | none => extractSourcesAux rest seen
    | some s =>
      if s == "" then extractSourcesAux rest seen
      else if (s, r.meta.page) ∈ seen then extractSourcesAux rest seen
      else ⟨s, r.meta.page, "document"⟩ :: extractSourcesAux rest ((s, r.meta.page) :: seen)

/-- `ResponseGenerator._extract_sources`. -/
def extractSources (ctx : RetrievalContext) : List SourceRec :=
  extractSourcesAux ctx.vector_results []

/-- The dict returned by `generate_response`. -/
structure GenResponse where
  response : String
  sources : List SourceRec
  confidence : ℚ
  error : Bool
deriving DecidableEq

/-- `ResponseGenerator.generate_response`, with the language-model call
abstracted into its outcome: `.ok text` when `model.generate_content`
returned `text`, `.error msg` when it raised.  On success: empty sources and
confidence `1.0` for greetings, else `_extract_sources` and
`_calculate_confidence`; on failure: the except-branch dict with confidence
`0.0`, empty sources and `error: True`. -/
def generate_response (query : String) (ctx : RetrievalContext)
    (modelOutcome : Except String String) : GenResponse :=
  match modelOutcome with
  | .error e =>
    { response := "I encountered an error: " ++ e
      sources := []
      confidence := 0
      error := true }
  | .ok text =>
    { response := text
      sources := if is_greeting query then [] else extractSources ctx
      confidence := if is_greeting query then 1 else calcConfidence ctx
      error := false }

/-! ## Fallback web search (`UniversalSearch`, `tools.py`) -/

/-- The three web-search providers, in the priority order of
`UniversalSearch.search`. -/
inductive Provider where
  | serper
  | tavily
  | google
deriving DecidableEq

/-- The credential environment read in `UniversalSearch.__init__`
(`os.getenv` returns `none` for an unset variable). -/
structure SearchEnv where
  serper_key : Option String
  tavily_key : Option String
  google_cse_key : Option String
  google_cse_id : Option String
deriving DecidableEq

/-- Python truthiness of a credential: present and non-empty. -/
def keyTruthy (o : Option String) : Bool :=
  match o with
  | none => false
  | some s => !(s == "")

/-- The outcome of each provider's network call, were it made: what
`_search_serper` / `_search_tavily` / `_search_google` would return (`none`
covers both an exception and an empty result, which those helpers already
swallow into `None`). -/
structure ProviderNet where
  serper : Option String
  tavily : Option String
  google : Option String
deriving DecidableEq

/-- `UniversalSearch.search` together with the trace of which provider calls
it makes: serper if its key is truthy, else tavily, else google (needing
both key and id), else no call and `None`. -/
def universalSearchTrace (env : SearchEnv) (net : ProviderNet) :
    Option String × List Provider :=
  if keyTruthy env.serper_key then (net.serper, [.serper])
  else if keyTruthy env.tavily_key then (net.tavily, [.tavily])
  else if keyTruthy env.google_cse_key && keyTruthy env.google_cse_id then
    (net.google, [.google])
  else (none, [])

/-- `UniversalSearch.search` (result only). -/
def universalSearch (env : SearchEnv) (net : ProviderNet) : Option String :=
  (universalSearchTrace env net).1

/-- Modelled from the spec: the pipeline's fallback-search step.  The
orchestrator that invokes `UniversalSearch.search` is not part of the
`src/` snapshot (the class is defined in `tools.py` but never called
there); per the spec it is "invoked only when `not is_greeting AND
vector_results is empty AND graph_results is empty`", it is called "with
the *original* query", and its absence of a result "must never abort the
pipeline".  The second component is the list of queries passed to
`UniversalSearch.search`, recording how many fallback calls are attempted. -/
def fallbackStep (query : String) (graphResults : List GraphResult)
    (vectorResults : List VectorResult) (env : SearchEnv) (net : ProviderNet) :
    Option String × List String :=
  if !is_greeting query && graphResults.isEmpty && vectorResults.isEmpty then
    (universalSearch env net, [query])
  else (none, [])

/-! ## Verifier (`verify_answer` in `scripts/qa_service.py`, and the
verification block of the `aqa` endpoint in `app.py`) -/

/-- The dict `verify_answer` returns. -/
structure VerificationResult where
  score : ℚ
  accurate : Bool
  confidence_reason : String
  issues : List String
deriving DecidableEq

/-- What the verification model response parses to (after the markdown
code-fence stripping): either a JSON value that is not an object, or an
object whose relevant fields are read with `.get` defaults.  Field values
are modelled at their Python-coerced types (`float(...)`, `bool(...)`,
`str(...)`, `list(...)`). -/
inductive VerifParsed where
  | nonObject
  | object (score? : Option ℚ) (accurate? : Option Bool)
           (reason? : Option String) (issues? : Option (List String))
deriving DecidableEq

/-- The outcome of the verification model call chain: `.apiError msg` when
every provider raised `APIError`, `.response parsed` when a response text
was obtained, with `parsed = none` when `json.loads` raised
`JSONDecodeError` and `parsed = some v` when it produced the value `v`. -/
inductive VerifModelOutcome where
  | apiError (msg : String)
  | response (parsed : Option VerifParsed)
deriving DecidableEq

/-- An uncaught Python exception escaping `verify_answer`. -/
inductive PyError where
  | attributeError
deriving DecidableEq

/-- `verify_answer`: on an `APIError` of the provider chain, the degraded
`score 0` dict; on an unparsable response, the degraded `score 0.5` dict;
on a parsed JSON object, the field values with `.get` defaults — and on a
parsed JSON value that is *not* an object, `result.get(...)` raises an
`AttributeError` that no `except` clause of the function catches. -/
def verify_answer : VerifModelOutcome → Except PyError VerificationResult
  | .apiError msg =>
    .ok ⟨0, false, "Verification unavailable: " ++ msg,
         ["Verification service unavailable"]⟩
  | .response none =>
    .ok ⟨1/2, false, "Verification response could not be parsed",
         ["Verification format error"]⟩
  | .response (some .nonObject) => .error .attributeError
  | .response (some (.object s a r i)) =>
    .ok ⟨s.getD 0, a.getD false, r.getD "", i.getD []⟩

/-- The `verification` value the `aqa` endpoint puts in its reply: the
verifier's dict, or the fallback `{"error": "Verification unavailable"}`
when the verification call raised. -/
inductive AqaVerification where
  | result (v : VerificationResult)
  | unavailable
deriving DecidableEq

/-- The verification block of the `aqa` endpoint: call `verify_answer`
inside a catch-all `try`; on success compute `verified = score >= 0.7`, on
any exception degrade to the fallback dict with `verified = False`. -/
def aqaVerificationBlock (out : VerifModelOutcome) : AqaVerification × Bool :=
  match verify_answer out with
  | .ok v => (.result v, decide ((7:ℚ)/10 ≤ v.score))
  | .error _ => (.unavailable, false)

/-! ## `GraphRAGPipeline.answer_query` in `rag_pipeline.py` (the pipeline
behind the `/api/v1/chat` route) -/

/-- An enriched graph entity produced by `retrieve_from_graph`
(`{"entity": ..., "related": [...]}`); only its presence matters to the
confidence computation, so the payload is opaque. -/
structure EnrichedEntity where
  dump : String
deriving DecidableEq

/-- The confidence computed at the end of `answer_query`:
`min(0.95, avg_score)` when vector results exist, else `0.3` with graph
results, else `0.1`. -/
def ragConfidence (vectorResults : List VectorResult)
    (graphResults : List EnrichedEntity) : ℚ :=
  if vectorResults.isEmpty then
    (if graphResults.isEmpty then 1/10 else 3/10)
  else min (19/20) (avgScore vectorResults)

/-- The response envelope of `answer_query` (the fields the claims speak
about), with the retrieval and generation outcomes passed in. -/
structure RagEnvelope where
  answer : String
  confidence : ℚ
  vectorCount : ℕ
  graphCount : ℕ
  fusedCount : ℕ
deriving DecidableEq

/-- The envelope assembly of `GraphRAGPipeline.answer_query`. -/
def ragAnswerQuery (answer : String) (vectorResults : List VectorResult)
    (graphResults : List EnrichedEntity) : RagEnvelope :=
  { answer := answer
    confidence := ragConfidence vectorResults graphResults
    vectorCount := vectorResults.length
    graphCount := graphResults.length
    fusedCount := vectorResults.length + graphResults.length }

/-! ## JSON knowledge graph (`json_graph.py`) -/

/-- A value stored in a node's `properties` dict: `JSONGraphDB.search` only
distinguishes strings (searched case-insensitively) from everything else. -/
inductive PropValue where
  | str (s : String)
  | nonStr
deriving DecidableEq

/-- A graph node (`{id, type, properties}`). -/
structure GNode where
  id : String
  type : String
  properties : List (String × PropValue)
deriving DecidableEq

/-- A relationship (`{source, target, type, properties}`; the properties are
never read by the traversal). -/
structure GRel where
  source : String
  target : String
  type : String
deriving DecidableEq

/-- The graph file: `nodes` is an insertion-ordered dict from key to node,
`relationships` a list. -/
structure KGraph where
  nodes : List (String × GNode)
  relationships : List GRel
deriving DecidableEq

/-- `self.graph["nodes"].get(node_id)`. -/
def nodeLookup (g : KGraph) (nodeId : String) : Option GNode :=
  (g.nodes.find? (fun p => p.1 == nodeId)).map Prod.snd

/-- The per-node match of `JSONGraphDB.search`: some string property value
contains the lowercased query as a substring (the loop `break`s at the
first hit, i.e. `any`). -/
def nodeMatches (query : String) (n : GNode) : Bool :=
  n.properties.any fun p =>
    match p.2 with
    | .str v => containsSub (lowerChars v.toList) (lowerChars query.toList)
    | .nonStr => false

/-- The type filter of `search`/`get_related_entities`: Python
`if xs and item not in xs: continue` keeps everything when the filter list
is `None` *or empty*. -/
def typeFilterOk (filt : Option (List String)) (t : String) : Bool :=
  match filt with
  | none => true
  | some [] => true
  | some ts => ts.contains t

/-- `JSONGraphDB.search(query, node_types)`: filter the node dict's values. -/
def graphSearch (g : KGraph) (query : String) (nodeTypes : Option (List String)) :
    List GNode :=
  (g.nodes.map Prod.snd).filter fun n =>
    typeFilterOk nodeTypes n.type && nodeMatches query n

/-- One collected record of `get_related_entities`
(`{"node": ..., "relationship": ..., "depth": ...}`). -/
structure RelRecord where
  node : GNode
  relationship : GRel
  depth : ℕ
deriving DecidableEq

/-- The mutable state of the `traverse` closure: the `visited` set of node
ids and the accumulated `results` list. -/
structure TravState where
  visited : List String
  results : List RelRecord
deriving DecidableEq

mutual

/-- The recursive `traverse(current_id, depth)` closure of
`get_related_entities`: return unchanged when `depth > max_depth` or the
node was visited; otherwise mark it visited and scan the relationship list.
`fuel` makes the depth-bounded recursion structural; the entry point
supplies enough fuel that the `0` branch coincides with the depth guard. -/
def traverseGo (g : KGraph) (relTypes : Option (List String)) (maxDepth : ℕ) :
    ℕ → String → ℕ → TravState → TravState
  | 0, _, _, st => st
  | fuel + 1, currentId, depth, st =>
    if maxDepth < depth || st.visited.contains currentId then st
    else
      traverseRels g relTypes maxDepth fuel g.relationships currentId depth
        { st with visited := currentId :: st.visited }

/-- The `for rel in self.graph["relationships"]` loop body of `traverse`:
for each relationship incident to the current node whose other endpoint
exists and is unvisited, append the `{node, relationship, depth}` record
and recurse into the endpoint at `depth + 1`. -/
def traverseRels (g : KGraph) (relTypes : Option (List String)) (maxDepth : ℕ) :
    ℕ → List GRel → String → ℕ → TravState → TravState
  | _, [], _, _, st => st
  | fuel, rel :: rest, currentId, depth, st =>
    let st' :=
      if !typeFilterOk relTypes rel.type then st
      else if rel.source == currentId then
        match nodeLookup g rel.target with
        | some tgt =>
          if st.visited.contains tgt.id then st
          else
            traverseGo g relTypes maxDepth fuel rel.target (depth + 1)
              { st with results := st.results ++ [⟨tgt, rel, depth⟩] }
        | none => st
      else if rel.target == currentId then
        match nodeLookup g rel.source with
        | some src =>
          if st.visited.contains src.id then st
          else
            traverseGo g relTypes maxDepth fuel rel.source (depth + 1)
              { st with results := st.results ++ [⟨src, rel, depth⟩] }
        | none => st
      else st
    traverseRels g relTypes maxDepth fuel rest currentId depth st'

end

/-- `JSONGraphDB.get_related_entities(node_id, rel_types, max_depth)`:
run `traverse(node_id, 1)` on empty state and return the records.  The
initial fuel keeps the invariant `fuel + depth = max_depth + 2`, so fuel
runs out only where the `depth > max_depth` guard already returns. -/
def getRelatedEntities (g : KGraph) (nodeId : String)
    (relTypes : Option (List String)) (maxDepth : ℕ) : List RelRecord :=
  (traverseGo g relTypes maxDepth (maxDepth + 1) nodeId 1 ⟨[], []⟩).results

/-- One item of the list `JsonGraphRetriever.search_by_entity` returns:
the seed entry `{"node": start_node}` (no relationship, no depth) or a
traversal record. -/
structure GraphHit where
  node : GNode
  relationship : Option GRel
  depth : Option ℕ
deriving DecidableEq

/-- `JsonGraphRetriever.search_by_entity(entity_name, depth)`: search node
properties for the name; with no match return `[]`; otherwise the first
match is the seed, followed by its related records. -/
def searchByEntity (g : KGraph) (entityName : String) (depth : ℕ) : List GraphHit :=
  match graphSearch g entityName none with
  | [] => []
  | n :: _ =>
    ⟨n, none, none⟩ ::
      (getRelatedEntities g n.id none depth).map fun r =>
        ⟨r.node, some r.relationship, some r.depth⟩

/-! ## Calculator (`TaxCalculator.calculate` in `tools.py`)

`calculate` sanitizes the expression with
`re.sub(r'[^0-9+\-*/().\s]', '', expression)`, evaluates the survivor with
`eval`, and formats the number as `f"{result:,.2f}"`; any exception becomes
the inline string `"Error in calculation: ..."`.

Python numbers are modelled as exact rationals in the pair representation
`PyNum` below (an `Int` numerator over a `Nat` denominator, kept unreduced
so that every operation is kernel-computable); `eval` on the sanitized
character set is modelled as a recursive-descent evaluator for Python's
arithmetic grammar over numeric literals, `+ - * /`, unary sign and
parentheses.  Binary floating point rounding, and the power/floor-division
spellings `**`/`//` (whose characters also survive sanitization but whose
float semantics lie outside the exact-rational model), are not modelled;
every concrete value appearing in a theorem below is exact in both
semantics. -/

/-- An exact rational in unreduced pair form; all arithmetic on it reduces
in the kernel. -/
structure PyNum where
  num : ℤ
  den : ℕ
deriving DecidableEq

/-- Rational addition on pairs. -/
def PyNum.add (a b : PyNum) : PyNum :=
  ⟨a.num * b.den + b.num * a.den, a.den * b.den⟩

/-- Rational subtraction on pairs. -/
def PyNum.sub (a b : PyNum) : PyNum :=
  ⟨a.num * b.den - b.num * a.den, a.den * b.den⟩

/-- Rational multiplication on pairs. -/
def PyNum.mul (a b : PyNum) : PyNum :=
  ⟨a.num * b.num, a.den * b.den⟩

/-- Unary minus. -/
def PyNum.neg (a : PyNum) : PyNum := ⟨-a.num, a.den⟩

/-- Evaluation errors: a syntax error from parsing, or Python's
`ZeroDivisionError`. -/
inductive CalcErr where
  | syntaxError
  | zeroDivision
deriving DecidableEq

/-- Rational division on pairs; dividing by an expression equal to zero is
Python's `ZeroDivisionError`. -/
def PyNum.divE (a b : PyNum) : Except CalcErr PyNum :=
  if b.num = 0 then .error .zeroDivision
  else if b.num < 0 then .ok ⟨-(a.num * b.den), a.den * b.num.natAbs⟩
  else .ok ⟨a.num * b.den, a.den * b.num.natAbs⟩

/-- The character class kept by `re.sub(r'[^0-9+\-*/().\s]', '', ...)`. -/
def keptChar (c : Char) : Bool :=
  c.isDigit || c == '+' || c == '-' || c == '*' || c == '/' ||
    c == '(' || c == ')' || c == '.' || c.isWhitespace

/-- The sanitization step of `calculate`. -/
def sanitizeChars (l : List Char) : List Char :=
  l.filter keptChar

/-- Tokens of the sanitized arithmetic expression. -/
inductive Tok where
  | num (v : PyNum)
  | plus
  | minus
  | star
  | slash
  | lparen
  | rparen
deriving DecidableEq

/-- A character that can be part of a numeric literal. -/
def isNumChar (c : Char) : Bool := c.isDigit || c == '.'

/-- The natural number denoted by a digit run (empty run denotes `0`, as in
the integer or fractional part of `".5"` / `"5."`). -/
def digitsVal (l : List Char) : ℕ :=
  l.foldl (fun acc c => 10 * acc + (c.toNat - '0'.toNat)) 0

/-- The value of a maximal numeral run: valid when it has at least one digit
and at most one dot (Python's lexer rejects the rest). -/
def numeralVal (l : List Char) : Option PyNum :=
  if (l.filter (fun c => c.isDigit)).isEmpty then none
  else if 1 < (l.filter (fun c => c == '.')).length then none
  else
    let intPart := l.takeWhile (fun c => !(c == '.'))
    let fracPart := (l.dropWhile (fun c => !(c == '.'))).drop 1
    some ⟨digitsVal intPart * 10 ^ fracPart.length + digitsVal fracPart,
          10 ^ fracPart.length⟩

/-- The tokenizer, with structural fuel (one unit per character consumed, so
`fuel = input length` always suffices). -/
def tokenizeAux : ℕ → List Char → Except CalcErr (List Tok)
  | _, [] => .ok []
  | 0, _ :: _ => .error .syntaxError
  | fuel + 1, c :: rest =>
    if c.isWhitespace then tokenizeAux fuel rest
    else if c == '+' then (tokenizeAux fuel rest).map (Tok.plus :: ·)
    else if c == '-' then (tokenizeAux fuel rest).map (Tok.minus :: ·)
    else if c == '*' then (tokenizeAux fuel rest).map (Tok.star :: ·)
    else if c == '/' then (tokenizeAux fuel rest).map (Tok.slash :: ·)
    else if c == '(' then (tokenizeAux fuel rest).map (Tok.lparen :: ·)
    else if c == ')' then (tokenizeAux fuel rest).map (Tok.rparen :: ·)
    else if isNumChar c then
      match numeralVal ((c :: rest).takeWhile isNumChar) with
      | none => .error .syntaxError
      | some v =>
        (tokenizeAux fuel ((c :: rest).dropWhile isNumChar)).map (Tok.num v :: ·)
    else .error .syntaxError

/-- Tokenize a sanitized character list. -/
def tokenize (l : List Char) : Except CalcErr (List Tok) :=
  tokenizeAux l.length l

/-- Nonterminals of Python's arithmetic grammar, with the accumulators of
the left-associative operator loops carried in the rule. -/
inductive PRule where
  | expr
  | exprLoop (acc : PyNum)
  | term
  | termLoop (acc : PyNum)
  | factor
  | atom

/-- The recursive-descent evaluator:
`expr := term (('+'|'-') term)*`, `term := factor (('*'|'/') factor)*`,
`factor := ('+'|'-') factor | atom`, `atom := number | '(' expr ')'`.
Structural fuel again; the entry point supplies more than the maximal
possible derivation depth. -/
def parseP : ℕ → PRule → List Tok → Except CalcErr (PyNum × List Tok)
  | 0, _, _ => .error .syntaxError
  | fuel + 1, rule, toks =>
    match rule with
    | .atom =>
      match toks with
      | .num v :: rest => .ok (v, rest)
      | .lparen :: rest =>
        match parseP fuel .expr rest with
        | .error e => .error e
        | .ok (v, rest') =>
          match rest' with
          | .rparen :: rest'' => .ok (v, rest'')
          | _ => .error .syntaxError
      | _ => .error .syntaxError
    | .factor =>
      match toks with
      | .plus :: rest => parseP fuel .factor rest
      | .minus :: rest => (parseP fuel .factor rest).map (fun p => (p.1.neg, p.2))
      | _ => parseP fuel .atom toks
    | .term =>
      match parseP fuel .factor toks with
      | .error e => .error e
      | .ok (v, rest) => parseP fuel (.termLoop v) rest
    | .termLoop acc =>
      match toks with
      | .star :: rest =>
        match parseP fuel .factor rest with
        | .error e => .error e
        | .ok (v, rest') => parseP fuel (.termLoop (acc.mul v)) rest'
      | .slash :: rest =>
        match parseP fuel .factor rest with
        | .error e => .error e
        | .ok (v, rest') =>
          match acc.divE v with
          | .error e => .error e
          | .ok q => parseP fuel (.termLoop q) rest'
      | _ => .ok (acc, toks)
    | .expr =>
      match parseP fuel .term toks with
      | .error e => .error e
      | .ok (v, rest) => parseP fuel (.exprLoop v) rest
    | .exprLoop acc =>
      match toks with
      | .plus :: rest =>
        match parseP fuel .term rest with
        | .error e => .error e
        | .ok (v, rest') => parseP fuel (.exprLoop (acc.add v)) rest'
      | .minus :: rest =>
        match parseP fuel .term rest with
        | .error e => .error e
        | .ok (v, rest') => parseP fuel (.exprLoop (acc.sub v)) rest'
      | _ => .ok (acc, toks)

/-- Evaluate a token list as a complete expression (`eval` fails when input
remains after the expression). -/
def evalToks (toks : List Tok) : Except CalcErr PyNum :=
  match parseP ((toks.length + 1) * 6) .expr toks with
  | .error e => .error e
  | .ok (v, rest) => if rest.isEmpty then .ok v else .error .syntaxError

/-- Group a digit run with thousands separators (input most significant
first, as produced by `Nat.toDigits`). -/
def commaGroupAux : List Char → ℕ → List Char
  | [], _ => []
  | c :: rest, i =>
    c :: (if (i + 1) % 3 == 0 && !rest.isEmpty then [','] else []) ++
      commaGroupAux rest (i + 1)

/-- Insert thousands separators into a digit run. -/
def commaGroup (ds : List Char) : List Char :=
  (commaGroupAux ds.reverse 0).reverse

/-- `f"{result:,.2f}"`: round to cents half-to-even, then render with
thousands separators and exactly two decimals. -/
def formatComma2 (x : PyNum) : String :=
  let a : ℤ := 100 * x.num
  let b : ℤ := (x.den : ℤ)
  let f : ℤ := Int.fdiv a b
  let r2 : ℤ := 2 * (a - f * b)
  let cents : ℤ :=
    if r2 < b then f else if b < r2 then f + 1 else if f % 2 = 0 then f else f + 1
  let n : ℕ := cents.natAbs
  let frac : ℕ := n % 100
  let fracDigits : List Char :=
    if frac < 10 then '0' :: Nat.toDigits 10 frac else Nat.toDigits 10 frac
  String.mk ((if x.num < 0 then ['-'] else []) ++
    commaGroup (Nat.toDigits 10 (n / 100)) ++ '.' :: fracDigits)

/-- The message of a swallowed evaluation exception (`str(e)`; the model
keeps the leading error words Python would produce). -/
def calcErrMsg : CalcErr → String
  | .syntaxError => "invalid syntax"
  | .zeroDivision => "division by zero"

/-- `TaxCalculator.calculate`: sanitize, evaluate, format — every failure
becomes the inline `"Error in calculation: ..."` string, never an
exception. -/
def calculate (expression : String) : String :=
  let sanitized := sanitizeChars expression.toList
  match tokenize sanitized with
  | .error e => "Error in calculation: " ++ calcErrMsg e
  | .ok toks =>
    match evalToks toks with
    | .error e => "Error in calculation: " ++ calcErrMsg e
    | .ok v => formatComma2 v

/-! ## Calculation-tag substitution

Modelled from the spec: the code that scans a generated answer for
`[[CALC: expression]]` tags and replaces each tag with
`TaxCalculator.calculate(expression)` is not part of the `src/` snapshot
(only the `calculate` tool itself and the prompt instructing the model to
emit the tags are); per the spec the generator "scans for all such tags,
evaluates each expression …, and replaces the tag in place", a malformed
expression yielding an inline error string "substituted for that tag only —
it does not fail the whole answer". -/

/-- The opening tag marker. -/
def calcOpenChars : List Char := "[[CALC:".toList

/-- The closing tag marker. -/
def calcCloseChars : List Char := "]]".toList

/-- Modelled from the spec: one left-to-right substitution pass.  Find the
next `[[CALC:` marker and its closing `]]`; replace the enclosed expression
by `calculate`'s output and continue after the tag; text with no (or an
unclosed) tag is returned unchanged.  Structural fuel: each substitution
consumes at least the nine marker characters, so `fuel = input length`
always suffices. -/
def substCalcAux : ℕ → List Char → List Char
  | 0, l => l
  | fuel + 1, l =>
    match splitAtSub calcOpenChars l with
    | none => l
    | some (pre, rest) =>
      match splitAtSub calcCloseChars rest with
      | none => l
      | some (expr, post) =>
        pre ++ (calculate (String.mk expr)).toList ++ substCalcAux fuel post

/-- Modelled from the spec: tag substitution over a character list. -/
def substCalcChars (l : List Char) : List Char :=
  substCalcAux l.length l

/-- Modelled from the spec: tag substitution over the generated answer. -/
def substituteCalculations (s : String) : String :=
  String.mk (substCalcChars s.toList)

/-! ## Concrete fixtures used by witnesses -/

/-- A two-node graph with one relationship, used to exercise the traversal
on concrete data. -/
def exampleGraph : KGraph :=
  ⟨[("A", ⟨"A", "Tax", [("name", .str "VAT")]⟩),
    ("B", ⟨"B", "Agency", [("name", .str "FIRS")]⟩)],
   [⟨"A", "B", "administers"⟩]⟩

/-- The record the example traversal collects. -/
def exampleRecord : RelRecord :=
  ⟨⟨"B", "Agency", [("name", .str "FIRS")]⟩, ⟨"A", "B", "administers"⟩, 1⟩

/-! # Properties

Helper lemmas first, then one theorem per documented property (with its
witness or counterexample where applicable). -/

/-- The dedup pass returns a sublist of its input. -/
theorem dedupAux_sublist (l : List FusedResult) (seen : List String) :
    (dedupAux l seen).Sublist l := by
  induction l generalizing seen with
  | nil => simp [dedupAux]
  | cons r rest ih =>
    simp only [dedupAux]
    split
    · exact (ih seen).cons r
    · exact (ih _).cons₂ r

/-- Entries surviving the dedup pass have keys outside the seen set. -/
theorem dedupAux_key_not_seen (l : List FusedResult) (seen : List String) :
    ∀ r ∈ dedupAux l seen, contentKey r ∉ seen := by
  induction l generalizing seen with
  | nil => simp [dedupAux]
  | cons a rest ih =>
    simp only [dedupAux]
    split
    · exact ih seen
    · intro r hr
      rcases List.mem_cons.mp hr with h | h
      · subst h; assumption
      · have := ih (contentKey a :: seen) r h
        exact fun hs => this (List.mem_cons_of_mem _ hs)

/-- The dedup pass leaves no two entries with the same content key. -/
theorem dedupAux_key_pairwise (l : List FusedResult) (seen : List String) :
    (dedupAux l seen).Pairwise (fun a b => contentKey a ≠ contentKey b) := by
  induction l generalizing seen with
  | nil => simp [dedupAux]
  | cons a rest ih =>
    simp only [dedupAux]
    split
    · exact ih seen
    · refine List.Pairwise.cons ?_ (ih _)
      intro b hb
      have := dedupAux_key_not_seen rest (contentKey a :: seen) b hb
      exact fun he => this (by simp [he])

/-- Filtering for a key drops a head entry with a different key. -/
theorem filter_key_cons_ne {k : String} {a : FusedResult} {l : List FusedResult}
    (h : ¬ contentKey a = k) :
    (a :: l).filter (fun r => contentKey r == k) =
      l.filter (fun r => contentKey r == k) :=
  @List.filter_cons_of_neg _ (fun r => contentKey r == k) a l (by simp [h])

/-- Filtering for a key keeps a head entry with that key. -/
theorem filter_key_cons_eq {k : String} {a : FusedResult} {l : List FusedResult}
    (h : contentKey a = k) :
    (a :: l).filter (fun r => contentKey r == k) =
      a :: l.filter (fun r => contentKey r == k) :=
  @List.filter_cons_of_pos _ (fun r => contentKey r == k) a l (by simp [h])

/-- The dedup pass keeps, for every key, exactly the first input entry
carrying that key (none when the key was already seen). -/
theorem dedupAux_filter_key (l : List FusedResult) (seen : List String) (k : String) :
    (dedupAux l seen).filter (fun r => contentKey r == k) =
      if k ∈ seen then [] else (l.filter (fun r => contentKey r == k)).take 1 := by
  induction l generalizing seen with
  | nil => simp [dedupAux]
  | cons a rest ih =>
    simp only [dedupAux]
    by_cases hk : contentKey a ∈ seen
    · rw [if_pos hk, ih seen]
      by_cases hks : k ∈ seen
      · simp [hks]
      · have hak : ¬ contentKey a = k := fun he => hks (he ▸ hk)
        simp only [if_neg hks]
        rw [filter_key_cons_ne hak]
    · rw [if_neg hk]
      by_cases hak : contentKey a = k
      · have hks : k ∉ seen := fun h => hk (hak ▸ h)
        rw [filter_key_cons_eq hak, if_neg hks, filter_key_cons_eq hak, ih,
          if_pos (by simp [hak])]
        simp
      · rw [filter_key_cons_ne hak, ih]
        by_cases hks : k ∈ seen
        · simp [hks]
        · have hcons : k ∉ contentKey a :: seen := by
            simp [List.mem_cons, hks, Ne.symm hak]
          rw [if_neg hcons, if_neg hks, filter_key_cons_ne hak]

/-- The sort step really sorts descending by score. -/
theorem sortedResults_sorted (g : List GraphResult) (v : List VectorResult) :
    (sortedResults g v).Pairwise (fun a b => b.score ≤ a.score) := by
  have h := @List.sorted_mergeSort FusedResult scoreDescBool
    (fun a b c hab hbc => by
      simp only [scoreDescBool, decide_eq_true_eq] at *
      exact le_trans hbc hab)
    (fun a b => by
      simp only [scoreDescBool, Bool.or_eq_true, decide_eq_true_eq]
      exact le_total b.score a.score)
    (combinedResults g v)
  exact h.imp (fun hab => by simpa [scoreDescBool, decide_eq_true_eq] using hab)

/-- Claim C1: for every pair of graph and vector result lists and every
`top_k`, the fused sequence of `_fuse_results` truncated by `retrieve` is
sorted descending by score, has pairwise distinct 100-character content
keys (keeping the first, highest-scored occurrence of each key), and has
length at most `top_k`. -/
theorem fusedResults_invariants (g : List GraphResult) (v : List VectorResult)
    (topK : ℕ) :
    (retrieveFused g v topK).Pairwise (fun a b => b.score ≤ a.score) ∧
    (retrieveFused g v topK).Pairwise (fun a b => contentKey a ≠ contentKey b) ∧
    (retrieveFused g v topK).length ≤ topK ∧
    (∀ k : String, (fuseResults g v).filter (fun r => contentKey r == k) =
      ((sortedResults g v).filter (fun r => contentKey r == k)).take 1) := by
  have hsub : (retrieveFused g v topK).Sublist (sortedResults g v) :=
    (List.take_sublist _ _).trans (dedupAux_sublist _ _)
  refine ⟨List.Pairwise.sublist hsub (sortedResults_sorted g v), ?_, ?_, ?_⟩
  · exact List.Pairwise.sublist (List.take_sublist _ _) (dedupAux_key_pairwise _ _)
  · calc (retrieveFused g v topK).length ≤ topK ⊓ (fuseResults g v).length := by
          simp [retrieveFused]
      _ ≤ topK := inf_le_left
  · intro k
    simpa using dedupAux_filter_key (sortedResults g v) [] k

/-- Claim C2 (counterexample): the query `"high"` is classified as a
greeting by `is_greeting` (because `"hi"` occurs as a *substring* of the
lowercased query) although none of its whitespace-separated tokens is a
member of the greeting vocabulary — refuting the claimed
token-membership characterization. -/
theorem isGreeting_token_counterexample :
    is_greeting "high" = true ∧
    (pyWords "high").any
      (fun w => greetingsList.any (fun g => g.toList == w)) = false := by
  constructor <;> decide

/-- Claim C2 (amended): `is_greeting` returns `true` iff the query has at
least one and at most three whitespace-separated words and some entry of
the greeting vocabulary occurs as a *substring* of the lowercased query
(not necessarily as a whole token). -/
theorem isGreeting_iff (q : String) :
    is_greeting q = true ↔
      pyWords q ≠ [] ∧ (pyWords q).length ≤ 3 ∧
        ∃ g ∈ greetingsList, containsSub (lowerChars q.toList) g.toList = true := by
  by_cases h : (pyWords q).isEmpty
  · have h' : pyWords q = [] := List.isEmpty_iff.mp h
    simp [is_greeting, h, h']
  · have h' : pyWords q ≠ [] := by simpa [List.isEmpty_iff] using h
    simp [is_greeting, h, h', List.any_eq_true]

/-- Claim C3 (counterexample): a context with a single vector result of
score `-1` and no graph results gets confidence `0.5 + min(-1, 0.3) = -0.5`
— the code only caps the confidence above at `1.0` and applies no lower
clamp, so the final value is not confined to `[0, 1]` as claimed. -/
theorem confidence_clamp_counterexample :
    calcConfidence ⟨[], [⟨some (-1), none, none⟩], none⟩ = -(1/2) ∧
    calcConfidence ⟨[], [⟨some (-1), none, none⟩], none⟩ < 0 := by
  have h : calcConfidence ⟨[], [⟨some (-1), none, none⟩], none⟩ = -(1/2) := by
    simp [calcConfidence, avgScore, VectorResult.score]
    norm_num [min_def]
  exact ⟨h, by rw [h]; norm_num⟩

/-- Claim C3 (amended): the heuristic confidence equals base `0.5`, plus
`0.2` if any graph results are present, plus the mean vector-result score
with that contribution capped at `0.3`, with the final value capped above
at `1.0` only (there is no lower clamp); in particular one vector result
scoring `0.9` and no graph results yields exactly `0.8`. -/
theorem confidence_formula (ctx : RetrievalContext) :
    calcConfidence ctx =
      min (1/2 + (if ctx.graph_results.isEmpty then 0 else 1/5) +
        (if ctx.vector_results.isEmpty then 0
         else min (avgScore ctx.vector_results) (3/10))) 1 ∧
    calcConfidence ⟨[], [⟨some (9/10), none, none⟩], none⟩ = 4/5 := by
  constructor
  · unfold calcConfidence
    by_cases h1 : ctx.graph_results.isEmpty <;>
      by_cases h2 : ctx.vector_results.isEmpty <;>
        simp [h1, h2]
  · simp [calcConfidence, avgScore, VectorResult.score]
    norm_num [min_def]

/-- Claim C10: every envelope of `GraphRAGPipeline.answer_query` in
`rag_pipeline.py` carries confidence `min(0.95, mean vector score)` when
vector results exist, else `0.3` with graph results, else `0.1`; hence
confidence is at most `0.95` and never `1.0` — for greetings or anything
else. -/
theorem ragConfidence_capped (ans : String) (v : List VectorResult)
    (g : List EnrichedEntity) :
    (ragAnswerQuery ans v g).confidence =
      (if v.isEmpty then (if g.isEmpty then 1/10 else 3/10)
       else min (19/20) (avgScore v)) ∧
    (ragAnswerQuery ans v g).confidence ≤ 19/20 ∧
    (ragAnswerQuery ans v g).confidence < 1 := by
  refine ⟨rfl, ?_, ?_⟩
  · show ragConfidence v g ≤ 19/20
    unfold ragConfidence
    split_ifs <;> norm_num
  · show ragConfidence v g < 1
    unfold ragConfidence
    split_ifs <;> norm_num

/-- Claim C7 (counterexample): when the language-model call raises for a
greeting query, `generate_response` returns its except-branch dict with
confidence `0.0`, not `1.0` — so not *every* response generated for a
greeting carries confidence `1.0`. -/
theorem greetingConfidence_counterexample :
    is_greeting "hi" = true ∧
    (generate_response "hi" ⟨[], [], none⟩ (.error "timeout")).confidence = 0 :=
  ⟨by decide, rfl⟩

/-- Claim C7 (amended): for a query classified as a greeting whose model
call succeeds, the response has confidence exactly `1.0` and an empty
sources list; when the model call raises, the error response (for any
query) has confidence `0.0` and empty sources; and the fallback search is
never invoked for a greeting. -/
theorem greetingResponse_policy :
    (∀ (q : String) (ctx : RetrievalContext) (text : String),
      is_greeting q = true →
        (generate_response q ctx (.ok text)).confidence = 1 ∧
        (generate_response q ctx (.ok text)).sources = []) ∧
    (∀ (q : String) (ctx : RetrievalContext) (e : String),
      (generate_response q ctx (.error e)).confidence = 0 ∧
      (generate_response q ctx (.error e)).sources = []) ∧
    (∀ (q : String) (g : List GraphResult) (v : List VectorResult)
        (env : SearchEnv) (net : ProviderNet),
      is_greeting q = true → (fallbackStep q g v env net).2 = []) := by
  refine ⟨?_, ?_, ?_⟩
  · intro q ctx text h
    simp [generate_response, h]
  · intro q ctx e
    simp [generate_response]
  · intro q g v env net h
    simp [fallbackStep, h]

/-- Witness for `greetingResponse_policy` at the query `"hi"`. -/
theorem greetingResponse_policy_witness :
    (generate_response "hi" ⟨[], [], none⟩ (.ok "Hello!")).confidence = 1 ∧
    (generate_response "hi" ⟨[], [], none⟩ (.ok "Hello!")).sources = [] :=
  greetingResponse_policy.1 "hi" ⟨[], [], none⟩ "Hello!" (by decide)

/-- Claim C4 (counterexample): on a model response parsing to the JSON
object `{"score": 0.9, "accurate": false}`, `verify_answer` returns
`accurate = false` although `score = 0.9 ≥ 0.7` — the `accurate` field is
taken from the model's JSON, not computed as `score >= 0.7`. -/
theorem verifyAccurate_counterexample :
    verify_answer (.response (some (.object (some (9/10)) (some false) none none))) =
      .ok ⟨9/10, false, "", []⟩ ∧
    decide ((7:ℚ)/10 ≤ 9/10) = true ∧
    (VerificationResult.accurate ⟨9/10, false, "", []⟩) = false :=
  ⟨rfl, by norm_num, rfl⟩

/-- Claim C4 (amended): `verify_answer` takes `accurate` directly from the
parsed response's `accurate` field (`false` when absent), independent of
the score; it is the calling `aqa` endpoint that computes its separate
`verified` flag as `score >= 0.7`; and on both degraded paths (unparsable
response, provider failure) `accurate = false` agrees with
`score >= 0.7` since the degraded scores are `0.5` and `0`. -/
theorem verifyAccurate_amended :
    (∀ (s : Option ℚ) (a : Option Bool) (r : Option String)
        (i : Option (List String)),
      verify_answer (.response (some (.object s a r i))) =
        .ok ⟨s.getD 0, a.getD false, r.getD "", i.getD []⟩) ∧
    (∀ (out : VerifModelOutcome) (v : VerificationResult),
      verify_answer out = .ok v →
        (aqaVerificationBlock out).2 = decide ((7:ℚ)/10 ≤ v.score)) ∧
    (∀ m : String, verify_answer (.apiError m) =
      .ok ⟨0, false, "Verification unavailable: " ++ m,
           ["Verification service unavailable"]⟩) ∧
    (verify_answer (.response none) =
      .ok ⟨1/2, false, "Verification response could not be parsed",
           ["Verification format error"]⟩) := by
  refine ⟨fun s a r i => rfl, ?_, fun m => rfl, rfl⟩
  intro out v h
  simp [aqaVerificationBlock, h]

/-- Witness for `verifyAccurate_amended` at the unparsable-response
outcome. -/
theorem verifyAccurate_amended_witness :
    (aqaVerificationBlock (.response none)).2 =
      decide ((7:ℚ)/10 ≤
        (VerificationResult.score
          ⟨1/2, false, "Verification response could not be parsed",
           ["Verification format error"]⟩)) :=
  verifyAccurate_amended.2.1 (.response none) _ rfl

/-- Claim C8 (counterexample): a model response that parses as a JSON value
which is not an object (for instance a JSON array) makes `verify_answer`
itself raise — `result.get` is an `AttributeError` that neither `except`
clause of the function catches — refuting "`verify_answer` never
propagates a failure to its caller". -/
theorem verifyPropagates_counterexample :
    verify_answer (.response (some .nonObject)) = .error .attributeError := rfl

/-- Claim C8 (amended): an unparsable model response degrades to exactly
`{score: 0.5, accurate: false}` with a could-not-be-parsed reason and a
non-empty issues list, and a provider failure degrades to exactly
`{score: 0, accurate: false}` with an unavailable reason; a response that
is valid JSON but not an object instead propagates an exception out of
`verify_answer` — yet the parent `aqa` request still never fails, because
its catch-all wrapper converts any such exception into the fallback
verification value with `verified = false`. -/
theorem verifyDegradation_amended :
    (verify_answer (.response none) =
      .ok ⟨1/2, false, "Verification response could not be parsed",
           ["Verification format error"]⟩) ∧
    (["Verification format error"] ≠ ([] : List String)) ∧
    (∀ m : String, verify_answer (.apiError m) =
      .ok ⟨0, false, "Verification unavailable: " ++ m,
           ["Verification service unavailable"]⟩) ∧
    (∀ out : VerifModelOutcome, (verify_answer out).isOk = false →
      aqaVerificationBlock out = (.unavailable, false)) := by
  refine ⟨rfl, by simp, fun m => rfl, ?_⟩
  intro out h
  unfold aqaVerificationBlock
  match hv : verify_answer out with
  | .ok v => rw [hv] at h; simp [Except.isOk, Except.toBool] at h
  | .error e => rfl

/-- Witness for `verifyDegradation_amended` at the non-object JSON
outcome. -/
theorem verifyDegradation_amended_witness :
    aqaVerificationBlock (.response (some .nonObject)) = (.unavailable, false) :=
  verifyDegradation_amended.2.2.2 (.response (some .nonObject)) rfl

/-- Claim C6: a non-greeting query with empty graph and vector results
triggers exactly one fallback call to `UniversalSearch.search` with the
original query (spec-modelled orchestration); the search itself tries the
providers in priority order — serper, else tavily, else google — calling
only the first one with a configured (truthy) key; with no configured key
it makes no call and returns `None`, and when the chosen provider's call
fails the search returns `None` rather than raising. -/
theorem fallbackSearch_contract :
    (∀ (q : String) (env : SearchEnv) (net : ProviderNet),
      is_greeting q = false →
        fallbackStep q [] [] env net = (universalSearch env net, [q])) ∧
    (∀ (env : SearchEnv) (net : ProviderNet),
      (universalSearchTrace env net).2.length ≤ 1) ∧
    (∀ (env : SearchEnv) (net : ProviderNet),
      keyTruthy env.serper_key = true →
        universalSearchTrace env net = (net.serper, [.serper])) ∧
    (∀ (env : SearchEnv) (net : ProviderNet),
      keyTruthy env.serper_key = false → keyTruthy env.tavily_key = true →
        universalSearchTrace env net = (net.tavily, [.tavily])) ∧
    (∀ (env : SearchEnv) (net : ProviderNet),
      keyTruthy env.serper_key = false → keyTruthy env.tavily_key = false →
        (keyTruthy env.google_cse_key && keyTruthy env.google_cse_id) = true →
        universalSearchTrace env net = (net.google, [.google])) ∧
    (∀ (env : SearchEnv) (net : ProviderNet),
      keyTruthy env.serper_key = false → keyTruthy env.tavily_key = false →
        (keyTruthy env.google_cse_key && keyTruthy env.google_cse_id) = false →
        universalSearchTrace env net = (none, [])) ∧
    (∀ env : SearchEnv, (universalSearchTrace env ⟨none, none, none⟩).1 = none) := by
  refine ⟨?_, ?_, ?_, ?_, ?_, ?_, ?_⟩
  · intro q env net h
    simp [fallbackStep, h]
  · intro env net
    unfold universalSearchTrace
    split_ifs <;> simp
  · intro env net h
    simp [universalSearchTrace, h]
  · intro env net h1 h2
    simp [universalSearchTrace, h1, h2]
  · intro env net h1 h2 h3
    simp [universalSearchTrace, h1, h2, h3]
  · intro env net h1 h2 h3
    simp [universalSearchTrace, h1, h2, h3]
  · intro env
    unfold universalSearchTrace
    split_ifs <;> rfl

/-- Witness for `fallbackSearch_contract` on a concrete non-greeting query
with no configured provider. -/
theorem fallbackSearch_contract_witness :
    fallbackStep "What is the VAT rate?" [] [] ⟨none, none, none, none⟩
        ⟨none, none, none⟩ =
      (universalSearch ⟨none, none, none, none⟩ ⟨none, none, none⟩,
       ["What is the VAT rate?"]) :=
  fallbackSearch_contract.1 "What is the VAT rate?" ⟨none, none, none, none⟩
    ⟨none, none, none⟩ (by decide)

/-- Out of fuel, the traversal returns the state unchanged (only reachable
where the depth guard would return anyway). -/
theorem traverseGo_zero (g : KGraph) (rt : Option (List String)) (md : ℕ)
    (cur : String) (depth : ℕ) (st : TravState) :
    traverseGo g rt md 0 cur depth st = st := by
  simp [traverseGo.eq_def]

/-- One unfolding of the `traverse` entry. -/
theorem traverseGo_succ (g : KGraph) (rt : Option (List String)) (md : ℕ)
    (fuel : ℕ) (cur : String) (depth : ℕ) (st : TravState) :
    traverseGo g rt md (fuel + 1) cur depth st =
      if md < depth || st.visited.contains cur then st
      else traverseRels g rt md fuel g.relationships cur depth
        { st with visited := cur :: st.visited } := by
  simp [traverseGo.eq_def]

/-- An empty relationship list leaves the state unchanged. -/
theorem traverseRels_nil (g : KGraph) (rt : Option (List String)) (md : ℕ)
    (fuel : ℕ) (cur : String) (depth : ℕ) (st : TravState) :
    traverseRels g rt md fuel [] cur depth st = st := by
  simp [traverseRels.eq_def]

/-- The relationship loop preserves the depth bounds on collected records,
provided the go-level does so at the same fuel: every record it appends
carries the current depth, which the caller guarantees to lie in
`[1, max_depth]`. -/
theorem traverseRels_inv_of_go (g : KGraph) (rt : Option (List String)) (md : ℕ)
    (fuel : ℕ)
    (hgo : ∀ (cur : String) (depth : ℕ) (st : TravState), 1 ≤ depth →
      (∀ r ∈ st.results, 1 ≤ r.depth ∧ r.depth ≤ md) →
      ∀ r ∈ (traverseGo g rt md fuel cur depth st).results,
        1 ≤ r.depth ∧ r.depth ≤ md) :
    ∀ (rels : List GRel) (cur : String) (depth : ℕ) (st : TravState),
      1 ≤ depth → depth ≤ md →
      (∀ r ∈ st.results, 1 ≤ r.depth ∧ r.depth ≤ md) →
      ∀ r ∈ (traverseRels g rt md fuel rels cur depth st).results,
        1 ≤ r.depth ∧ r.depth ≤ md := by
  intro rels
  induction rels with
  | nil =>
    intro cur depth st h1 h2 hst
    rw [traverseRels_nil]
    exact hst
  | cons rel rest ih =>
    intro cur depth st h1 h2 hst
    rw [traverseRels.eq_2]
    apply ih cur depth _ h1 h2
    by_cases ht : typeFilterOk rt rel.type
    · simp only [ht, Bool.not_true, Bool.false_eq_true, if_false]
      by_cases hs : (rel.source == cur) = true
      · simp only [hs, if_true]
        cases hl : nodeLookup g rel.target with
        | none => simp only [hl]; exact hst
        | some tgt =>
          simp only [hl]
          by_cases hv : st.visited.contains tgt.id
          · simp only [hv, if_true]; exact hst
          · simp only [hv, Bool.false_eq_true, if_false]
            apply hgo rel.target (depth + 1) _ (by omega)
            intro r hr
            rcases List.mem_append.mp hr with hmem | hmem
            · exact hst r hmem
            · rcases List.mem_singleton.mp hmem with rfl
              exact ⟨h1, h2⟩
      · simp only [hs, Bool.false_eq_true, if_false]
        by_cases hs2 : (rel.target == cur) = true
        · simp only [hs2, if_true]
          cases hl : nodeLookup g rel.source with
          | none => simp only [hl]; exact hst
          | some src =>
            simp only [hl]
            by_cases hv : st.visited.contains src.id
            · simp only [hv, if_true]; exact hst
            · simp only [hv, Bool.false_eq_true, if_false]
              apply hgo rel.source (depth + 1) _ (by omega)
              intro r hr
              rcases List.mem_append.mp hr with hmem | hmem
              · exact hst r hmem
              · rcases List.mem_singleton.mp hmem with rfl
                exact ⟨h1, h2⟩
        · simp only [hs2, Bool.false_eq_true, if_false]
          exact hst
    · simp only [ht, Bool.not_false, if_true]
      exact hst

/-- The traversal only ever collects records whose depth annotation lies in
`[1, max_depth]`, whatever the graph, the fuel, and the start state. -/
theorem traverseGo_inv (g : KGraph) (rt : Option (List String)) (md : ℕ) :
    ∀ (fuel : ℕ) (cur : String) (depth : ℕ) (st : TravState), 1 ≤ depth →
      (∀ r ∈ st.results, 1 ≤ r.depth ∧ r.depth ≤ md) →
      ∀ r ∈ (traverseGo g rt md fuel cur depth st).results,
        1 ≤ r.depth ∧ r.depth ≤ md := by
  intro fuel
  induction fuel with
  | zero =>
    intro cur depth st _ hst
    rw [traverseGo_zero]
    exact hst
  | succ n ihn =>
    intro cur depth st h1 hst
    rw [traverseGo_succ]
    by_cases hmd : md < depth
    · rw [if_pos (by simp [hmd])]
      exact hst
    · by_cases hvis : st.visited.contains cur
      · rw [if_pos (by simp; exact Or.inr (by simpa using hvis))]
        exact hst
      · rw [if_neg (by simp [hmd]; simpa using hvis)]
        exact traverseRels_inv_of_go g rt md n ihn g.relationships cur depth
          _ h1 (by omega) hst

/-- Claim C9: for every finite graph (cycles allowed), seed and
`max_depth`, the traversal of `get_related_entities` computes (the model is
a total function over the depth-bounded recursion) and annotates every
collected record with a depth between `1` and `max_depth`; and an entity
name matching no node yields an empty `search_by_entity` result rather
than an error. -/
theorem graphTraversal_contract :
    (∀ (g : KGraph) (nodeId : String) (rt : Option (List String)) (md : ℕ),
      ∀ r ∈ getRelatedEntities g nodeId rt md, 1 ≤ r.depth ∧ r.depth ≤ md) ∧
    (∀ (g : KGraph) (name : String) (depth : ℕ),
      graphSearch g name none = [] → searchByEntity g name depth = []) := by
  constructor
  · intro g nodeId rt md
    unfold getRelatedEntities
    exact traverseGo_inv g rt md (md + 1) nodeId 1 ⟨[], []⟩ le_rfl (by simp)
  · intro g name depth h
    unfold searchByEntity
    rw [h]

/-- Witness for `graphTraversal_contract`: the record collected on the
two-node example graph has depth `1 ∈ [1, 2]`, and a name matching nothing
yields the empty result. -/
theorem graphTraversal_contract_witness :
    (1 ≤ exampleRecord.depth ∧ exampleRecord.depth ≤ 2) ∧
    searchByEntity exampleGraph "capital gains" 2 = [] :=
  ⟨graphTraversal_contract.1 exampleGraph "A" none 2 exampleRecord
      (by simp [getRelatedEntities, traverseGo.eq_def, traverseRels.eq_def,
        exampleGraph, exampleRecord, nodeLookup, typeFilterOk]),
   graphTraversal_contract.2 exampleGraph "capital gains" 2 (by decide)⟩

/-- A successful `splitAtSub` really decomposes the input around the
marker. -/
theorem splitAtSub_some_eq :
    ∀ {m l : List Char} {p : List Char × List Char},
      splitAtSub m l = some p → l = p.1 ++ m ++ p.2 := by
  intro m l
  induction l with
  | nil =>
    intro p h
    unfold splitAtSub at h
    split at h
    · rename_i hpre
      cases h
      have hm : m = [] := by
        simpa using List.isPrefixOf_iff_prefix.mp hpre
      simp [hm]
    · cases h
  | cons c rest ih =>
    intro p h
    unfold splitAtSub at h
    split at h
    · rename_i hpre
      cases h
      obtain ⟨t, ht⟩ := List.isPrefixOf_iff_prefix.mp hpre
      simp [← ht, List.drop_left]
    · obtain ⟨q, hq, hfq⟩ := Option.map_eq_some'.mp h
      have hrest := ih hq
      rw [← hfq]
      simp [hrest]

/-- `splitAtSub` finds a marker placed after a stretch of text that does not
contain the marker's first character. -/
theorem splitAtSub_at_marker (mc : Char) (mt : List Char) :
    ∀ (pre rest : List Char), mc ∉ pre →
      splitAtSub (mc :: mt) (pre ++ mc :: (mt ++ rest)) = some (pre, rest) := by
  intro pre
  induction pre with
  | nil =>
    intro rest _
    have hpre : (mc :: mt).isPrefixOf (mc :: (mt ++ rest)) = true :=
      List.isPrefixOf_iff_prefix.mpr ⟨rest, by simp⟩
    simp only [List.nil_append, splitAtSub, hpre, if_true]
    simp [List.drop_left]
  | cons c pre' ih =>
    intro rest hmem
    have hmc : mc ≠ c := fun he => hmem (by simp [he])
    have hmem' : mc ∉ pre' := fun h => hmem (List.mem_cons_of_mem _ h)
    have hnp : ¬ (mc :: mt).isPrefixOf (c :: (pre' ++ mc :: (mt ++ rest))) = true := by
      simp [List.isPrefixOf, hmc]
    simp only [List.cons_append, splitAtSub, hnp, if_false, Bool.false_eq_true,
      List.append_eq]
    rw [ih rest hmem']
    rfl

/-- Substitution fuel is irrelevant as long as it covers the input length
(each substitution consumes the nine marker characters, so the length
always suffices). -/
theorem substCalcAux_congr :
    ∀ (f1 f2 : ℕ) (l : List Char), l.length ≤ f1 → l.length ≤ f2 →
      substCalcAux f1 l = substCalcAux f2 l := by
  intro f1
  induction f1 with
  | zero =>
    intro f2 l h1 _
    have hl : l = [] := List.length_eq_zero.mp (Nat.le_zero.mp h1)
    subst hl
    cases f2 with
    | zero => rfl
    | succ m =>
      have hnil : splitAtSub calcOpenChars [] = none := by decide
      simp [substCalcAux, hnil]
  | succ n ih =>
    intro f2 l h1 h2
    cases f2 with
    | zero =>
      have hl : l = [] := List.length_eq_zero.mp (Nat.le_zero.mp h2)
      subst hl
      have hnil : splitAtSub calcOpenChars [] = none := by decide
      simp [substCalcAux, hnil]
    | succ m =>
      cases houter : splitAtSub calcOpenChars l with
      | none => simp [substCalcAux, houter]
      | some p =>
        obtain ⟨pre, rest⟩ := p
        cases hinner : splitAtSub calcCloseChars rest with
        | none => simp [substCalcAux, houter, hinner]
        | some q =>
          obtain ⟨expr, post⟩ := q
          have e1 : l = pre ++ calcOpenChars ++ rest := splitAtSub_some_eq houter
          have e2 : rest = expr ++ calcCloseChars ++ post := splitAtSub_some_eq hinner
          have h7 : calcOpenChars.length = 7 := by decide
          have h9 : calcCloseChars.length = 2 := by decide
          have hlen : l.length =
              pre.length + 7 + (expr.length + 2 + post.length) := by
            rw [e1, e2]
            simp only [List.length_append, h7, h9]
          have hpost1 : post.length ≤ n := by omega
          have hpost2 : post.length ≤ m := by omega
          simp only [substCalcAux, houter, hinner]
          rw [ih m post hpost1 hpost2]

/-- One tag is substituted in place: text before the tag (containing no
`'['`) and after it are preserved, and the tag body (containing no `']'`)
is replaced by `calculate`'s output, with substitution continuing on the
tail. -/
theorem substCalcChars_tag (pre expr post : List Char)
    (h1 : '[' ∉ pre) (h2 : ']' ∉ expr) :
    substCalcChars (pre ++ calcOpenChars ++ expr ++ calcCloseChars ++ post) =
      pre ++ (calculate (String.mk expr)).toList ++ substCalcChars post := by
  have hopen : calcOpenChars = '[' :: "[CALC:".toList := rfl
  have hclose : calcCloseChars = ']' :: "]".toList := rfl
  have hset : pre ++ ('[' :: "[CALC:".toList) ++ expr ++ calcCloseChars ++ post =
      pre ++ '[' :: ("[CALC:".toList ++ (expr ++ calcCloseChars ++ post)) := by
    simp [List.append_assoc]
  have houter : splitAtSub calcOpenChars
      (pre ++ calcOpenChars ++ expr ++ calcCloseChars ++ post) =
      some (pre, expr ++ calcCloseChars ++ post) := by
    rw [hopen, hset]
    exact splitAtSub_at_marker _ _ _ _ h1
  have hsetInner : expr ++ (']' :: "]".toList) ++ post =
      expr ++ ']' :: ("]".toList ++ post) := by
    simp [List.append_assoc]
  have hinner : splitAtSub calcCloseChars (expr ++ calcCloseChars ++ post) =
      some (expr, post) := by
    rw [hclose, hsetInner]
    exact splitAtSub_at_marker _ _ _ _ h2
  have h7 : calcOpenChars.length = 7 := by decide
  have h9 : calcCloseChars.length = 2 := by decide
  have hL : (pre ++ calcOpenChars ++ expr ++ calcCloseChars ++ post).length =
      pre.length + 7 + expr.length + 2 + post.length := by
    simp only [List.length_append, h7, h9]
  obtain ⟨k, hk⟩ : ∃ k,
      (pre ++ calcOpenChars ++ expr ++ calcCloseChars ++ post).length = k + 1 :=
    ⟨pre.length + 7 + expr.length + 2 + post.length - 1, by rw [hL]; omega⟩
  show substCalcAux _ _ = _
  rw [hk]
  simp only [substCalcAux, houter, hinner]
  rw [substCalcAux_congr k post.length post (by omega) le_rfl]
  rfl

/-- Claim C5: the `[[CALC: …]]` directives of an answer are each evaluated
by `TaxCalculator.calculate` — which strips every character outside digits,
`+ - * / ( ) .` and whitespace before evaluation and formats the numeric
result with thousands separators and two decimals — and substituted in
place: `5000000 * 0.24` yields `"1,200,000.00"`, a malformed `5*` yields an
inline `"Error in calculation: …"` string for that tag only with the rest
of the answer unaffected, `calculate` always returns a formatted number or
an inline error string (no exception escapes), and in general one tag is
replaced by `calculate`'s output with the surrounding text preserved. -/
theorem calcSubstitution_spec :
    (substituteCalculations "Total: [[CALC: 5000000 * 0.24]]" =
      "Total: 1,200,000.00") ∧
    (substituteCalculations "Rate: [[CALC: 5*]] rest unaffected." =
      "Rate: Error in calculation: invalid syntax rest unaffected.") ∧
    (∀ e : String, ∀ c ∈ sanitizeChars e.toList, keptChar c = true) ∧
    (∀ e : String, (∃ v : PyNum, calculate e = formatComma2 v) ∨
      (∃ err : CalcErr, calculate e = "Error in calculation: " ++ calcErrMsg err)) ∧
    (∀ pre expr post : List Char, '[' ∉ pre → ']' ∉ expr →
      substCalcChars (pre ++ calcOpenChars ++ expr ++ calcCloseChars ++ post) =
        pre ++ (calculate (String.mk expr)).toList ++ substCalcChars post) := by
  refine ⟨by decide, by decide, ?_, ?_,
    fun pre expr post => substCalcChars_tag pre expr post⟩
  · intro e c hc
    exact (List.mem_filter.mp hc).2
  · intro e
    cases h1 : tokenize (sanitizeChars e.data) with
    | error err => exact Or.inr ⟨err, by simp [calculate, h1]⟩
    | ok toks =>
      cases h2 : evalToks toks with
      | error err => exact Or.inr ⟨err, by simp [calculate, h1, h2]⟩
      | ok v => exact Or.inl ⟨v, by simp [calculate, h1, h2]⟩

/-- Witness for `calcSubstitution_spec` at a concrete one-tag answer and a
concrete sanitized character. -/
theorem calcSubstitution_spec_witness :
    keptChar '5' = true ∧
    substCalcChars ("A ".toList ++ calcOpenChars ++ "1+1".toList ++
        calcCloseChars ++ " B".toList) =
      "A ".toList ++ (calculate (String.mk "1+1".toList)).toList ++
        substCalcChars " B".toList :=
  ⟨calcSubstitution_spec.2.2.1 "5a" '5' (by decide),
   calcSubstitution_spec.2.2.2.2 "A ".toList "1+1".toList " B".toList
     (by decide) (by decide)⟩

end NTRIA
